import Mathlib

/-!
Verification of the `andar-ai-feed` server (`src/server.js`).

The development shallowly embeds the token lifecycle (global `ACCESS_TOKEN`,
`REFRESH_TOKEN`, `TOKEN_EXPIRY` and the functions `refreshAccessToken`,
`getAccessToken`, the authorization-code callback of `app.get('/')`), the
pagination loop of `app.get('/ai-feed')`, the JSON-LD product mapping, and
the `</head>` template splice. Network effects are made explicit: each
function takes the upstream response it would receive as an argument and
returns, alongside its result, the new token state and the number of calls
made to the token endpoint.
-/

/-- JavaScript truthiness of a nullable string variable: `null`/`undefined`
(modelled by `none`) and the empty string are falsy. -/
def jsTruthy : Option String → Bool
  | none => false
  | some s => s != ""

/-- The process-wide mutable token state: `ACCESS_TOKEN`, `REFRESH_TOKEN`,
`TOKEN_EXPIRY` (server.js lines 21-23). Times are milliseconds since epoch. -/
structure TokenState where
  accessToken : Option String
  refreshToken : Option String
  tokenExpiry : Int
  deriving Repr, DecidableEq

/-- Body of a successful JSON response of the OAuth token endpoint:
`{access_token, refresh_token?, expires_in}`. -/
structure TokenResponse where
  access_token : String
  refresh_token : Option String
  expires_in : Int
  deriving Repr, DecidableEq

/-- Outcome of one HTTP POST to the token endpoint: either a non-2xx response
(carrying its status code and body text) or a 2xx response with token data. -/
inductive HttpTokenResult where
  | failure (status : Nat) (errorText : String)
  | success (tokenData : TokenResponse)
  deriving Repr, DecidableEq

/-- Error taxonomy of the token manager, keyed by the two throw sites of
`refreshAccessToken`: line 42 (no refresh token) and line 64 (non-2xx grant).
Each carries the thrown message. -/
inductive AuthErr where
  | authRequired (msg : String)
  | upstreamAuthError (msg : String)
  deriving Repr, DecidableEq

/-- Result of a token acquisition attempt: the returned value or thrown error,
the token state after the call, and how many POSTs to the token endpoint the
call performed. -/
structure AcqResult where
  result : Except AuthErr String
  state : TokenState
  tokenCalls : Nat
  deriving Repr

/-- `refreshAccessToken` (server.js lines 40-78). With no (truthy) refresh
token it throws before any network call. Otherwise it POSTs the refresh grant
once; on a non-2xx response it clears both tokens and throws a message built
from the response body; on success it stores the new access token, keeps the
old refresh token unless the response supplies a truthy new one, and sets the
expiry to `now + expires_in * 1000`. -/
def refreshAccessToken (s : TokenState) (now : Int) (resp : HttpTokenResult) :
    AcqResult :=
  if jsTruthy s.refreshToken = false then
    { result := .error (.authRequired
        "Not authorized. No refresh token available. Please visit /auth to authorize the app.")
      state := s
      tokenCalls := 0 }
  else
    match resp with
    | .failure _ errorText =>
        { result := .error (.upstreamAuthError
            ("Refresh token failed: " ++ errorText ++ ". Please re-authorize at /auth."))
          state := { s with accessToken := none, refreshToken := none }
          tokenCalls := 1 }
    | .success tokenData =>
        { result := .ok tokenData.access_token
          state :=
            { accessToken := some tokenData.access_token
              refreshToken :=
                if jsTruthy tokenData.refresh_token then tokenData.refresh_token
                else s.refreshToken
              tokenExpiry := now + tokenData.expires_in * 1000 }
          tokenCalls := 1 }

/-- `getAccessToken` (server.js lines 83-91): if `ACCESS_TOKEN` is truthy and
`Date.now() < TOKEN_EXPIRY - 300000`, return the cached token with no network
call; otherwise delegate to `refreshAccessToken`. -/
def getAccessToken (s : TokenState) (now : Int) (resp : HttpTokenResult) :
    AcqResult :=
  if jsTruthy s.accessToken = true ∧ now < s.tokenExpiry - 300000 then
    { result := .ok (s.accessToken.getD ""), state := s, tokenCalls := 0 }
  else
    refreshAccessToken s now resp

/-- The authorization-code exchange of the root callback (server.js lines
117-149), reached when a `code` query parameter is present: on a non-2xx
exchange it throws without touching the token state; on success it stores the
access token, the response's refresh token as-is, and the computed expiry. -/
def exchangeCallback (s : TokenState) (now : Int) (resp : HttpTokenResult) :
    Except String Unit × TokenState :=
  match resp with
  | .failure _ errorText =>
      (.error ("Token exchange failed: " ++ errorText), s)
  | .success tokenData =>
      (.ok (),
       { accessToken := some tokenData.access_token
         refreshToken := tokenData.refresh_token
         tokenExpiry := now + tokenData.expires_in * 1000 })

/-- One product record of the upstream listing response, restricted to the
fields the feed reads (server.js lines 200-213); all other fields are opaque
to the program. `detail_image` and `list_image` are nullable strings. -/
structure ProductRecord where
  product_no : Nat
  product_name : String
  detail_image : Option String
  list_image : Option String
  price : String
  stock_quantity : Int
  deriving Repr, DecidableEq

/-- The `offers` object of one JSON-LD product (server.js lines 207-212). -/
structure JsonLdOffer where
  price : String
  priceCurrency : String
  availability : String
  deriving Repr, DecidableEq

/-- One JSON-LD `Product` object (server.js lines 200-213); the constant
`@context`/`@type` tags are omitted. -/
structure JsonLdProduct where
  name : String
  image : Option String
  url : String
  sku : Nat
  offers : JsonLdOffer
  deriving Repr, DecidableEq

/-- JavaScript `a || b` on two nullable strings: the first operand when it is
truthy, the second otherwise. -/
def jsOrString (a b : Option String) : Option String :=
  if jsTruthy a then a else b

/-- The JSON-LD mapping of one product (server.js lines 200-213):
`image` is `detail_image || list_image`, and `availability` is
`"https://schema.org/" + (stock_quantity > 0 ? "InStock" : "OutOfStock")`. -/
def toJsonLd (mallId : String) (product : ProductRecord) : JsonLdProduct :=
  { name := product.product_name
    image := jsOrString product.detail_image product.list_image
    url := "https://" ++ mallId ++ ".com/product/detail.html?product_no=" ++
      toString product.product_no
    sku := product.product_no
    offers :=
      { price := product.price
        priceCurrency := "KRW"
        availability := "https://schema.org/" ++
          (if product.stock_quantity > 0 then "InStock" else "OutOfStock") } }

/-- The pagination loop of `app.get('/ai-feed')` (server.js lines 162-197).
`pageAt n` is the (successful) listing response for page `n`; `acc` and
`calls` accumulate the collected records and the number of listing calls.
The JS loop is unbounded, so the embedding carries explicit fuel and returns
`none` only when the fuel runs out before the loop stops. -/
def fetchLoop (pageAt : Nat → List ProductRecord) (limit : Nat) :
    Nat → Nat → List ProductRecord → Nat → Option (List ProductRecord × Nat)
  | 0, _, _, _ => none
  | fuel + 1, page, acc, calls =>
      if (pageAt page).length = 0 then some (acc, calls + 1)
      else if (pageAt page).length < limit then
        some (acc ++ pageAt page, calls + 1)
      else fetchLoop pageAt limit fuel (page + 1) (acc ++ pageAt page) (calls + 1)

/-- `fetchAllProducts`: the whole pagination pass, page counter starting at 1
with the fixed page size `limit = 100` (server.js lines 162-197). -/
def fetchAllProducts (pageAt : Nat → List ProductRecord) (fuel : Nat) :
    Option (List ProductRecord × Nat) :=
  fetchLoop pageAt 100 fuel 1 [] 0

/-- An upstream serving the successive pages `ps` (page 1 is `ps[0]`, …) and
empty pages beyond. -/
def pageOracle (ps : List (List ProductRecord)) (n : Nat) :
    List ProductRecord :=
  ps.getD (n - 1) []

/-- A concrete product record used to instantiate the pagination and mapping
properties. -/
def sampleProduct : ProductRecord :=
  { product_no := 1
    product_name := "sample"
    detail_image := none
    list_image := none
    price := "1000"
    stock_quantity := 1 }

/-- Number of character positions of `t` at which the pattern `pat` occurs
(occurrences may overlap). -/
def numOccs (pat : List Char) : List Char → Nat
  | [] => 0
  | c :: cs => (if pat.isPrefixOf (c :: cs) then 1 else 0) + numOccs pat cs

/-- JavaScript `String.prototype.replace` with a plain-string pattern,
on character lists: only the first occurrence of `pat` is replaced. -/
def replaceFirstL (pat rep : List Char) : List Char → List Char
  | [] => []
  | c :: cs =>
      if pat.isPrefixOf (c :: cs) then rep ++ (c :: cs).drop pat.length
      else c :: replaceFirstL pat rep cs

/-- JavaScript `s.replace(pat, rep)` for a plain-string pattern. -/
def jsReplace (s pat rep : String) : String :=
  String.mk (replaceFirstL pat.data rep.data s.data)

/-- The closing-head marker `'</head>'` used by the template splice. -/
def headMarker : List Char := "</head>".data

/-- The template splice of `app.get('/ai-feed')` (server.js line 221):
`htmlContent.replace('</head>', jsonLdScript + '\n</head>')`. -/
def injectJsonLd (jsonLdScript htmlContent : String) : String :=
  jsReplace htmlContent "</head>" (jsonLdScript ++ "\n</head>")

/-- C1: if the cached access token is truthy and the current time is more than
5 minutes (300000 ms) before the recorded expiry, `getAccessToken` returns the
cached access token, performs zero calls to the token endpoint (for any
upstream behaviour `resp`), and leaves the state unchanged. -/
theorem getAccessToken_cache_hit (s : TokenState) (now : Int)
    (resp : HttpTokenResult) (h1 : jsTruthy s.accessToken = true)
    (h2 : now < s.tokenExpiry - 300000) :
    getAccessToken s now resp =
      { result := .ok (s.accessToken.getD ""), state := s, tokenCalls := 0 } := by
  unfold getAccessToken
  rw [if_pos ⟨h1, h2⟩]

/-- Witness for C1: a concrete cache-hit call returns the cached token with
zero network calls. -/
theorem getAccessToken_cache_hit_witness :
    getAccessToken ⟨some "tokA", some "tokR", 1000000⟩ 0 (.failure 500 "down") =
      { result := .ok "tokA", state := ⟨some "tokA", some "tokR", 1000000⟩,
        tokenCalls := 0 } :=
  getAccessToken_cache_hit ⟨some "tokA", some "tokR", 1000000⟩ 0
    (.failure 500 "down") (by decide) (by decide)

/-- C10: a cache-hit call of `getAccessToken` leaves the shared token state
(`ACCESS_TOKEN`, `REFRESH_TOKEN`, `TOKEN_EXPIRY`) unchanged. -/
theorem getAccessToken_cache_hit_frame (s : TokenState) (now : Int)
    (resp : HttpTokenResult) (h1 : jsTruthy s.accessToken = true)
    (h2 : now < s.tokenExpiry - 300000) :
    (getAccessToken s now resp).state = s := by
  unfold getAccessToken
  rw [if_pos ⟨h1, h2⟩]

/-- Witness for C10: a concrete cache-hit call leaves the state unchanged. -/
theorem getAccessToken_cache_hit_frame_witness :
    (getAccessToken ⟨some "tokA", none, 1000000⟩ 0 (.success ⟨"n", none, 3600⟩)).state =
      ⟨some "tokA", none, 1000000⟩ :=
  getAccessToken_cache_hit_frame ⟨some "tokA", none, 1000000⟩ 0
    (.success ⟨"n", none, 3600⟩) (by decide) (by decide)

/-- C5: when no valid cached access token exists (cache miss) and no refresh
token is held, `getAccessToken` fails with the `AuthRequired` error directing
the caller to `/auth`, making zero network calls, for any upstream behaviour. -/
theorem getAccessToken_authRequired (s : TokenState) (now : Int)
    (resp : HttpTokenResult)
    (hmiss : ¬(jsTruthy s.accessToken = true ∧ now < s.tokenExpiry - 300000))
    (hnoref : jsTruthy s.refreshToken = false) :
    getAccessToken s now resp =
      { result := .error (.authRequired
          "Not authorized. No refresh token available. Please visit /auth to authorize the app.")
        state := s
        tokenCalls := 0 } := by
  unfold getAccessToken refreshAccessToken
  rw [if_neg hmiss, if_pos hnoref]

/-- Witness for C5: with an empty state, `getAccessToken` fails with
`AuthRequired` and zero network calls. -/
theorem getAccessToken_authRequired_witness :
    getAccessToken ⟨none, none, 0⟩ 0 (.success ⟨"n", none, 3600⟩) =
      { result := .error (.authRequired
          "Not authorized. No refresh token available. Please visit /auth to authorize the app.")
        state := ⟨none, none, 0⟩
        tokenCalls := 0 } :=
  getAccessToken_authRequired ⟨none, none, 0⟩ 0 (.success ⟨"n", none, 3600⟩)
    (by decide) (by decide)

/-- C2: on a cache miss (no truthy cached token, or within 5 minutes of
expiry), `getAccessToken` makes at most one call to the token endpoint,
exactly one when a refresh token is held — also when that call fails, so no
retry ever happens — and a successful return always performed exactly one
call. -/
theorem getAccessToken_cache_miss_one_call (s : TokenState) (now : Int)
    (resp : HttpTokenResult)
    (hmiss : ¬(jsTruthy s.accessToken = true ∧ now < s.tokenExpiry - 300000)) :
    (getAccessToken s now resp).tokenCalls ≤ 1 ∧
    (jsTruthy s.refreshToken = true →
      (getAccessToken s now resp).tokenCalls = 1) ∧
    (∀ t : String, (getAccessToken s now resp).result = .ok t →
      (getAccessToken s now resp).tokenCalls = 1) := by
  unfold getAccessToken refreshAccessToken
  rw [if_neg hmiss]
  by_cases href : jsTruthy s.refreshToken = false
  · rw [if_pos href]
    refine ⟨Nat.zero_le 1, fun h => ?_, fun t h => Except.noConfusion h⟩
    rw [h] at href
    exact absurd href (by decide)
  · rw [if_neg href]
    cases resp with
    | failure st body =>
        exact ⟨le_refl 1, fun _ => rfl, fun t _ => rfl⟩
    | success td =>
        exact ⟨le_refl 1, fun _ => rfl, fun t _ => rfl⟩

/-- Witness for C2: an expired-token state with a refresh token makes exactly
one token-endpoint call, both on success and on failure. -/
theorem getAccessToken_cache_miss_one_call_witness :
    (getAccessToken ⟨some "old", some "tokR", 0⟩ 0
        (.success ⟨"new", none, 3600⟩)).tokenCalls = 1 ∧
    (getAccessToken ⟨some "old", some "tokR", 0⟩ 0
        (.failure 401 "denied")).tokenCalls = 1 :=
  ⟨(getAccessToken_cache_miss_one_call ⟨some "old", some "tokR", 0⟩ 0
      (.success ⟨"new", none, 3600⟩) (by decide)).2.1 (by decide),
   (getAccessToken_cache_miss_one_call ⟨some "old", some "tokR", 0⟩ 0
      (.failure 401 "denied") (by decide)).2.1 (by decide)⟩

/-- C6: a successful refresh grant stores the new access token and the expiry
`now + expires_in * 1000`, and replaces the stored refresh token only when the
response supplies a (truthy) new one, otherwise retaining the old one. -/
theorem refreshAccessToken_success_update (s : TokenState) (now : Int)
    (td : TokenResponse) (href : jsTruthy s.refreshToken = true) :
    (refreshAccessToken s now (.success td)).state.accessToken =
        some td.access_token ∧
    (refreshAccessToken s now (.success td)).state.tokenExpiry =
        now + td.expires_in * 1000 ∧
    (jsTruthy td.refresh_token = true →
      (refreshAccessToken s now (.success td)).state.refreshToken =
        td.refresh_token) ∧
    (jsTruthy td.refresh_token = false →
      (refreshAccessToken s now (.success td)).state.refreshToken =
        s.refreshToken) := by
  unfold refreshAccessToken
  rw [if_neg (by simp [href])]
  refine ⟨rfl, rfl, fun h => ?_, fun h => ?_⟩
  · simp [h]
  · simp [h]

/-- Witness for C6: a refresh response carrying a new refresh token rotates
it, and one carrying none retains the old refresh token. -/
theorem refreshAccessToken_success_update_witness :
    (refreshAccessToken ⟨none, some "oldR", 0⟩ 7
        (.success ⟨"newA", some "newR", 3600⟩)).state.refreshToken =
      some "newR" ∧
    (refreshAccessToken ⟨none, some "oldR", 0⟩ 7
        (.success ⟨"newA", none, 3600⟩)).state.refreshToken = some "oldR" :=
  ⟨(refreshAccessToken_success_update ⟨none, some "oldR", 0⟩ 7
      ⟨"newA", some "newR", 3600⟩ (by decide)).2.2.1 (by decide),
   (refreshAccessToken_success_update ⟨none, some "oldR", 0⟩ 7
      ⟨"newA", none, 3600⟩ (by decide)).2.2.2 (by decide)⟩

/-- Counterexample for C4: at a concrete non-2xx refresh response with status
400 and body `"oops"`, the thrown message is
`"Refresh token failed: oops. Please re-authorize at /auth."`, and the status
digits `"400"` occur nowhere in it — the message carries the body but not the
upstream status, contradicting the claim. -/
theorem refreshAccessToken_failure_message_no_status :
    (refreshAccessToken ⟨some "tokA", some "tokR", 0⟩ 0
        (.failure 400 "oops")).result =
      .error (.upstreamAuthError
        "Refresh token failed: oops. Please re-authorize at /auth.") ∧
    numOccs "400".data
      "Refresh token failed: oops. Please re-authorize at /auth.".data = 0 :=
  ⟨rfl, by decide⟩

/-- C4 (amended): every non-2xx refresh response makes the token manager clear
both the cached access token and the refresh token and fail with an
`UpstreamAuthError` whose message carries the response body (the upstream
status code is not part of the message). -/
theorem refreshAccessToken_failure_clears_tokens (s : TokenState) (now : Int)
    (st : Nat) (body : String) (href : jsTruthy s.refreshToken = true) :
    refreshAccessToken s now (.failure st body) =
      { result := .error (.upstreamAuthError
          ("Refresh token failed: " ++ body ++ ". Please re-authorize at /auth."))
        state := ⟨none, none, s.tokenExpiry⟩
        tokenCalls := 1 } := by
  unfold refreshAccessToken
  rw [if_neg (by simp [href])]

/-- Witness for C4 (amended): a concrete failing refresh clears both tokens
and reports the body in the message. -/
theorem refreshAccessToken_failure_clears_tokens_witness :
    refreshAccessToken ⟨some "tokA", some "tokR", 42⟩ 5 (.failure 401 "denied") =
      { result := .error (.upstreamAuthError
          "Refresh token failed: denied. Please re-authorize at /auth.")
        state := ⟨none, none, 42⟩
        tokenCalls := 1 } :=
  refreshAccessToken_failure_clears_tokens ⟨some "tokA", some "tokR", 42⟩ 5
    401 "denied" (by decide)

/-- Counterexample for C9: a failing authorization-code exchange leaves the
token state exactly as it was — at a concrete state holding an access token,
the state after the failure still holds it, so the state is not reset to
absent as the claim requires. -/
theorem exchangeCallback_failure_keeps_state :
    (exchangeCallback ⟨some "tokA", some "tokR", 999⟩ 0 (.failure 400 "bad")).2 =
      ⟨some "tokA", some "tokR", 999⟩ ∧
    (TokenState.mk (some "tokA") (some "tokR") 999).accessToken ≠ none :=
  ⟨rfl, by decide⟩

/-- C9 (amended): failing refresh calls reset the token state to absent (both
tokens cleared); failing authorization-code exchange calls leave the token
state unchanged; successful exchange and refresh calls overwrite the stored
fields wholesale. -/
theorem tokenState_transition_discipline (s : TokenState) (now : Int)
    (st : Nat) (body : String) (td : TokenResponse) :
    (jsTruthy s.refreshToken = true →
      (refreshAccessToken s now (.failure st body)).state =
        ⟨none, none, s.tokenExpiry⟩) ∧
    ((exchangeCallback s now (.failure st body)).2 = s) ∧
    ((exchangeCallback s now (.success td)).2 =
      ⟨some td.access_token, td.refresh_token, now + td.expires_in * 1000⟩) ∧
    (jsTruthy s.refreshToken = true →
      (refreshAccessToken s now (.success td)).state =
        ⟨some td.access_token,
         if jsTruthy td.refresh_token then td.refresh_token else s.refreshToken,
         now + td.expires_in * 1000⟩) := by
  refine ⟨fun href => ?_, rfl, rfl, fun href => ?_⟩
  · unfold refreshAccessToken
    rw [if_neg (by simp [href])]
  · unfold refreshAccessToken
    rw [if_neg (by simp [href])]

/-- Witness for C9 (amended): concrete failing refresh, failing exchange and
successful exchange transitions. -/
theorem tokenState_transition_discipline_witness :
    (refreshAccessToken ⟨some "tokA", some "tokR", 7⟩ 0 (.failure 500 "e")).state =
      ⟨none, none, 7⟩ ∧
    (exchangeCallback ⟨some "tokA", some "tokR", 7⟩ 0 (.failure 500 "e")).2 =
      ⟨some "tokA", some "tokR", 7⟩ ∧
    (exchangeCallback ⟨some "tokA", some "tokR", 7⟩ 3 (.success ⟨"A2", some "R2", 2⟩)).2 =
      ⟨some "A2", some "R2", 3 + 2 * 1000⟩ :=
  ⟨(tokenState_transition_discipline ⟨some "tokA", some "tokR", 7⟩ 0 500 "e"
      ⟨"A2", some "R2", 2⟩).1 (by decide),
   (tokenState_transition_discipline ⟨some "tokA", some "tokR", 7⟩ 0 500 "e"
      ⟨"A2", some "R2", 2⟩).2.1,
   (tokenState_transition_discipline ⟨some "tokA", some "tokR", 7⟩ 3 500 "e"
      ⟨"A2", some "R2", 2⟩).2.2.1⟩

/-- Helper: when the upstream serves the non-empty page list `ps` starting at
page number `page` — every page before the last full (`limit` records), the
last one short — the fetch loop collects exactly the concatenation of `ps` in
order and performs exactly `ps.length` listing calls. -/
theorem fetchLoop_pages (ps : List (List ProductRecord)) :
    ∀ (pageAt : Nat → List ProductRecord) (limit fuel page : Nat)
      (acc : List ProductRecord) (calls : Nat),
      0 < limit → ps ≠ [] →
      (∀ i, i < ps.length → pageAt (page + i) = ps.getD i []) →
      (∀ i, i + 1 < ps.length → (ps.getD i []).length = limit) →
      (ps.getD (ps.length - 1) []).length < limit →
      ps.length ≤ fuel →
      fetchLoop pageAt limit fuel page acc calls =
        some (acc ++ ps.flatten, calls + ps.length) := by
  induction ps with
  | nil =>
      intro _ _ _ _ _ _ _ hne _ _ _ _
      exact absurd rfl hne
  | cons p tail ih =>
      intro pageAt limit fuel page acc calls hlim _ hagree hfull hlast hfuel
      obtain ⟨f, rfl⟩ : ∃ f, fuel = f + 1 := by
        cases fuel with
        | zero => simp at hfuel
        | succ f => exact ⟨f, rfl⟩
      have hpage : pageAt page = p := by simpa using hagree 0 (by simp)
      cases tail with
      | nil =>
          have hplen : p.length < limit := by simpa using hlast
          by_cases hz : p.length = 0
          · rw [List.length_eq_zero] at hz
            subst hz
            simp [fetchLoop, hpage]
          · simp [fetchLoop, hpage, hz, hplen]
      | cons q rest =>
          have hplen : p.length = limit := by
            have := hfull 0 (by simp)
            simpa using this
          have hz : ¬p.length = 0 := by omega
          have hlt : ¬p.length < limit := by omega
          have hagree' : ∀ i, i < (q :: rest).length →
              pageAt (page + 1 + i) = (q :: rest).getD i [] := by
            intro i hi
            have := hagree (i + 1) (by simpa using Nat.succ_lt_succ hi)
            rw [show page + (i + 1) = page + 1 + i by omega] at this
            simpa using this
          have hfull' : ∀ i, i + 1 < (q :: rest).length →
              ((q :: rest).getD i []).length = limit := by
            intro i hi
            have := hfull (i + 1) (by simpa using Nat.succ_lt_succ hi)
            simpa using this
          have hlast' : (((q :: rest).getD ((q :: rest).length - 1) [])).length <
              limit := by
            have hns : (p :: q :: rest).length - 1 = ((q :: rest).length - 1) + 1 := by
              simp
            rw [hns] at hlast
            simpa using hlast
          have hfuel' : (q :: rest).length ≤ f := by
            simpa using hfuel
          have hrec := ih pageAt limit f (page + 1) (acc ++ p) (calls + 1) hlim
            (by simp) hagree' hfull' hlast' hfuel'
          simp only [fetchLoop, hpage]
          rw [if_neg hz, if_neg hlt, hrec]
          simp [List.append_assoc]
          omega

/-- C3: the pagination of `app.get('/ai-feed')` with fixed page size 100:
for any non-empty run of upstream pages in which every page but the last
holds exactly 100 records and the last strictly fewer (possibly zero), the
fetcher issues exactly one listing call per page and returns the records of
all pages concatenated in page order. Pages of sizes `[100, 100, 37]` hence
give 3 calls and 237 records, and a first page of size 0 gives 1 call and an
empty result (see the witness). -/
theorem fetchAllProducts_pagination (ps : List (List ProductRecord))
    (fuel : Nat) (hne : ps ≠ [])
    (hfull : ∀ i, i + 1 < ps.length → (ps.getD i []).length = 100)
    (hlast : (ps.getD (ps.length - 1) []).length < 100)
    (hfuel : ps.length ≤ fuel) :
    fetchAllProducts (pageOracle ps) fuel = some (ps.flatten, ps.length) := by
  unfold fetchAllProducts
  have h := fetchLoop_pages ps (pageOracle ps) 100 fuel 1 [] 0 (by omega) hne
    (fun i _ => by simp [pageOracle, Nat.add_sub_cancel_left])
    hfull hlast hfuel
  simpa using h

/-- Witness for C3: upstream pages of sizes `[100, 100, 37]` produce exactly
3 listing calls and 237 records in page order, and a first page of size 0
produces exactly 1 call and an empty sequence. -/
theorem fetchAllProducts_pagination_witness :
    fetchAllProducts (pageOracle [List.replicate 100 sampleProduct,
        List.replicate 100 sampleProduct, List.replicate 37 sampleProduct]) 3 =
      some ([List.replicate 100 sampleProduct, List.replicate 100 sampleProduct,
        List.replicate 37 sampleProduct].flatten, 3) ∧
    ([List.replicate 100 sampleProduct, List.replicate 100 sampleProduct,
        List.replicate 37 sampleProduct].flatten).length = 237 ∧
    fetchAllProducts (pageOracle ([[]] : List (List ProductRecord))) 1 =
      some (([] : List ProductRecord), 1) := by
  refine ⟨?_, ?_, ?_⟩
  · have h := fetchAllProducts_pagination [List.replicate 100 sampleProduct,
      List.replicate 100 sampleProduct, List.replicate 37 sampleProduct] 3
      (by simp)
      (by
        intro i hi
        simp only [List.length_cons, List.length_nil] at hi
        have h01 : i = 0 ∨ i = 1 := by omega
        rcases h01 with rfl | rfl <;> simp)
      (by simp)
      (by simp)
    exact h
  · simp only [List.flatten_cons, List.flatten_nil, List.length_append,
      List.length_replicate, List.length_nil]
  · have h := fetchAllProducts_pagination [[]] 1 (by simp)
      (by intro i hi; simp at hi) (by simp) (by simp)
    exact h

/-- C7: the JSON-LD mapping gives availability
`"https://schema.org/InStock"` exactly when `stock_quantity > 0` and
`"https://schema.org/OutOfStock"` otherwise, and the `image` field is the
(truthy) detail image, falling back to the listing image when the detail
image is absent. -/
theorem toJsonLd_availability_image (mallId : String) (p : ProductRecord) :
    (0 < p.stock_quantity →
      (toJsonLd mallId p).offers.availability = "https://schema.org/InStock") ∧
    (p.stock_quantity ≤ 0 →
      (toJsonLd mallId p).offers.availability = "https://schema.org/OutOfStock") ∧
    (jsTruthy p.detail_image = true →
      (toJsonLd mallId p).image = p.detail_image) ∧
    (jsTruthy p.detail_image = false →
      (toJsonLd mallId p).image = p.list_image) := by
  refine ⟨fun h => ?_, fun h => ?_, fun h => ?_, fun h => ?_⟩
  · show "https://schema.org/" ++
        (if 0 < p.stock_quantity then "InStock" else "OutOfStock") =
      "https://schema.org/InStock"
    rw [if_pos h]
    decide
  · show "https://schema.org/" ++
        (if 0 < p.stock_quantity then "InStock" else "OutOfStock") =
      "https://schema.org/OutOfStock"
    rw [if_neg (not_lt.mpr h)]
    decide
  · show jsOrString p.detail_image p.list_image = p.detail_image
    unfold jsOrString
    rw [if_pos h]
  · show jsOrString p.detail_image p.list_image = p.list_image
    unfold jsOrString
    rw [if_neg (by simp [h])]

/-- Witness for C7: `stock_quantity 0` maps to `OutOfStock`, `5` maps to
`InStock`, and a product with no detail image but a listing image uses the
listing image. -/
theorem toJsonLd_availability_image_witness :
    (toJsonLd "andar" ⟨10, "a", none, some "list.jpg", "1000", 0⟩).offers.availability =
      "https://schema.org/OutOfStock" ∧
    (toJsonLd "andar" ⟨11, "b", some "detail.jpg", some "list.jpg", "2000", 5⟩).offers.availability =
      "https://schema.org/InStock" ∧
    (toJsonLd "andar" ⟨10, "a", none, some "list.jpg", "1000", 0⟩).image =
      some "list.jpg" :=
  ⟨(toJsonLd_availability_image "andar" ⟨10, "a", none, some "list.jpg", "1000", 0⟩).2.1
      (by decide),
   (toJsonLd_availability_image "andar" ⟨11, "b", some "detail.jpg", some "list.jpg", "2000", 5⟩).1
      (by decide),
   (toJsonLd_availability_image "andar" ⟨10, "a", none, some "list.jpg", "1000", 0⟩).2.2.2
      (by decide)⟩

/-- Helper: a list is a (boolean) prefix of itself followed by anything. -/
theorem isPrefixOf_append_self (p b : List Char) :
    p.isPrefixOf (p ++ b) = true := by
  induction p with
  | nil => simp [List.isPrefixOf]
  | cons c cs ih =>
      simp only [List.cons_append, List.isPrefixOf, Bool.and_eq_true, beq_iff_eq]
      exact ⟨by simp, ih⟩

/-- Helper: a boolean prefix of `u` is a boolean prefix of `u ++ v`. -/
theorem isPrefixOf_append_right (p u v : List Char)
    (h : p.isPrefixOf u = true) : p.isPrefixOf (u ++ v) = true := by
  induction p generalizing u with
  | nil => simp [List.isPrefixOf]
  | cons c cs ih =>
      cases u with
      | nil => simp [List.isPrefixOf] at h
      | cons d ds =>
          simp only [List.cons_append, List.isPrefixOf, Bool.and_eq_true,
            beq_iff_eq] at h ⊢
          exact ⟨h.1, ih ds h.2⟩

/-- Helper: a boolean prefix of `u ++ v` no longer than `u` is a boolean
prefix of `u`. -/
theorem isPrefixOf_of_append (p u v : List Char)
    (h : p.isPrefixOf (u ++ v) = true) (hlen : p.length ≤ u.length) :
    p.isPrefixOf u = true := by
  induction p generalizing u with
  | nil => simp [List.isPrefixOf]
  | cons c cs ih =>
      cases u with
      | nil => simp at hlen
      | cons d ds =>
          simp only [List.cons_append, List.isPrefixOf, Bool.and_eq_true,
            beq_iff_eq] at h ⊢
          exact ⟨h.1, ih ds h.2 (by simpa using hlen)⟩

/-- Helper: a non-empty pattern occurs at least once in `a ++ pat`. -/
theorem one_le_numOccs_append (pat : List Char) (hne : pat ≠ [])
    (a : List Char) : 1 ≤ numOccs pat (a ++ pat) := by
  induction a with
  | nil =>
      cases pat with
      | nil => exact absurd rfl hne
      | cons c cs =>
          have hpre : (c :: cs).isPrefixOf (c :: cs) = true := by
            have h2 := isPrefixOf_append_self (c :: cs) []
            rwa [List.append_nil] at h2
          rw [List.nil_append]
          show 1 ≤ (if (c :: cs).isPrefixOf (c :: cs) = true then 1 else 0) +
            numOccs (c :: cs) cs
          rw [if_pos hpre]
          exact Nat.le_add_right 1 _
  | cons d ds ih =>
      show 1 ≤ (if pat.isPrefixOf (d :: (ds ++ pat)) = true then 1 else 0) +
        numOccs pat (ds ++ pat)
      exact le_trans ih (Nat.le_add_left _ _)

/-- Helper: occurrence counting is monotone under extending the text on the
right. -/
theorem numOccs_le_append (pat u v : List Char) :
    numOccs pat u ≤ numOccs pat (u ++ v) := by
  induction u with
  | nil => simp [numOccs]
  | cons c cs ih =>
      show (if pat.isPrefixOf (c :: cs) = true then 1 else 0) + numOccs pat cs ≤
        (if pat.isPrefixOf (c :: (cs ++ v)) = true then 1 else 0) +
          numOccs pat (cs ++ v)
      by_cases hp : pat.isPrefixOf (c :: cs) = true
      · have hp2 : pat.isPrefixOf (c :: (cs ++ v)) = true := by
          have h2 := isPrefixOf_append_right pat (c :: cs) v hp
          simpa using h2
        rw [if_pos hp, if_pos hp2]
        omega
      · rw [if_neg hp]
        exact le_trans (by omega) (Nat.add_le_add (Nat.zero_le _) ih)

/-- Helper: when the pattern does not occur, the replacement is the
identity. -/
theorem replaceFirstL_of_numOccs_zero (pat rep t : List Char)
    (h : numOccs pat t = 0) : replaceFirstL pat rep t = t := by
  induction t with
  | nil => rfl
  | cons c cs ih =>
      have h' : (if pat.isPrefixOf (c :: cs) = true then 1 else 0) +
          numOccs pat cs = 0 := h
      have h1 : ¬pat.isPrefixOf (c :: cs) = true := by
        intro hp
        rw [if_pos hp] at h'
        omega
      have h2 : numOccs pat cs = 0 := by
        rw [if_neg h1] at h'
        omega
      show (if pat.isPrefixOf (c :: cs) = true then rep ++ (c :: cs).drop pat.length
        else c :: replaceFirstL pat rep cs) = c :: cs
      rw [if_neg h1, ih h2]

/-- Helper: when the occurrence of the pattern at position `a.length` is its
first occurrence, the replacement rewrites exactly that occurrence and keeps
everything else. -/
theorem replaceFirstL_first_occ (pat rep : List Char) (hne : pat ≠ []) :
    ∀ a b : List Char, numOccs pat (a ++ pat) = 1 →
      replaceFirstL pat rep (a ++ pat ++ b) = a ++ rep ++ b := by
  intro a
  induction a with
  | nil =>
      intro b _
      cases pat with
      | nil => exact absurd rfl hne
      | cons c cs =>
          have hpre : (c :: cs).isPrefixOf (c :: (cs ++ b)) = true :=
            isPrefixOf_append_self (c :: cs) b
          show replaceFirstL (c :: cs) rep ((c :: cs) ++ b) = rep ++ b
          rw [List.cons_append]
          show (if (c :: cs).isPrefixOf (c :: (cs ++ b)) = true then
              rep ++ (c :: (cs ++ b)).drop (c :: cs).length
            else c :: replaceFirstL (c :: cs) rep (cs ++ b)) = rep ++ b
          rw [if_pos hpre, ← List.cons_append, List.drop_left]
  | cons d ds ih =>
      intro b h
      have htail_ge : 1 ≤ numOccs pat (ds ++ pat) :=
        one_le_numOccs_append pat hne ds
      have h' : (if pat.isPrefixOf (d :: (ds ++ pat)) = true then 1 else 0) +
          numOccs pat (ds ++ pat) = 1 := by
        have := h
        rwa [List.cons_append] at this
      have hhead : ¬pat.isPrefixOf (d :: (ds ++ pat)) = true := by
        intro hp
        rw [if_pos hp] at h'
        omega
      have htail : numOccs pat (ds ++ pat) = 1 := by
        rw [if_neg hhead] at h'
        omega
      have hhead' : ¬pat.isPrefixOf (d :: (ds ++ pat ++ b)) = true := by
        intro hp
        apply hhead
        have hlen : pat.length ≤ (d :: (ds ++ pat)).length := by
          simp [List.length_append]
          omega
        have := isPrefixOf_of_append pat (d :: (ds ++ pat)) b
          hp hlen
        exact this
      show replaceFirstL pat rep ((d :: ds) ++ pat ++ b) = (d :: ds) ++ rep ++ b
      rw [List.cons_append, List.cons_append, List.cons_append]
      show (if pat.isPrefixOf (d :: (ds ++ pat ++ b)) = true then
          rep ++ (d :: (ds ++ pat ++ b)).drop pat.length
        else d :: replaceFirstL pat rep (ds ++ pat ++ b)) =
        d :: (ds ++ rep ++ b)
      rw [if_neg hhead', ih b htail]

/-- C8: the template splice of the feed route. For any template decomposing
as `a ++ "</head>" ++ b`: (i) when the template contains exactly one
occurrence of the marker, the output is `a ++ script ++ "\n" ++ "</head>" ++ b`
— the JSON-LD script tag directly before the marker (separated by the inserted
newline), the rest byte-identical; (ii) more generally, whenever the marker
occurrence at position `a.length` is the first one, only that occurrence is
replaced; (iii) when the marker does not occur at all, the output is
byte-identical to the template. -/
theorem injectJsonLd_spec (script t : String) :
    (∀ a b : List Char, t.data = a ++ headMarker ++ b →
        numOccs headMarker t.data = 1 →
        (injectJsonLd script t).data =
          a ++ script.data ++ ('\n' :: headMarker) ++ b) ∧
    (∀ a b : List Char, t.data = a ++ headMarker ++ b →
        numOccs headMarker (a ++ headMarker) = 1 →
        (injectJsonLd script t).data =
          a ++ script.data ++ ('\n' :: headMarker) ++ b) ∧
    (numOccs headMarker t.data = 0 → injectJsonLd script t = t) := by
  have hne : headMarker ≠ [] := by decide
  have hrep : (script ++ "\n</head>").data = script.data ++ '\n' :: headMarker := by
    rw [String.data_append]
    rfl
  have hdata : (injectJsonLd script t).data =
      replaceFirstL headMarker (script.data ++ '\n' :: headMarker) t.data := by
    show (String.mk (replaceFirstL "</head>".data
        (script ++ "\n</head>").data t.data)).data = _
    rw [hrep]
    rfl
  have hmain : ∀ a b : List Char, t.data = a ++ headMarker ++ b →
      numOccs headMarker (a ++ headMarker) = 1 →
      (injectJsonLd script t).data =
        a ++ script.data ++ ('\n' :: headMarker) ++ b := by
    intro a b hsplit hfirst
    rw [hdata, hsplit, replaceFirstL_first_occ headMarker _ hne a b hfirst]
    simp [List.append_assoc]
  refine ⟨fun a b hsplit honce => ?_, hmain, fun hzero => ?_⟩
  · have hge := one_le_numOccs_append headMarker hne a
    have hle := numOccs_le_append headMarker (a ++ headMarker) b
    rw [← hsplit] at hle
    exact hmain a b hsplit (le_antisymm (by omega) hge)
  · show String.mk (replaceFirstL "</head>".data
        (script ++ "\n</head>").data t.data) = t
    rw [replaceFirstL_of_numOccs_zero "</head>".data _ t.data hzero]

/-- Witness for C8: a template with exactly one `</head>` receives the script
tag spliced directly before the marker with the rest byte-identical; a
template without the marker is returned unchanged. -/
theorem injectJsonLd_spec_witness :
    (injectJsonLd "<s>J</s>" "<html><head></head><body></body></html>").data =
      "<html><head>".data ++ "<s>J</s>".data ++ ('\n' :: headMarker) ++
        "<body></body></html>".data ∧
    injectJsonLd "<s>J</s>" "<p>nohead</p>" = "<p>nohead</p>" :=
  ⟨(injectJsonLd_spec "<s>J</s>" "<html><head></head><body></body></html>").1
      "<html><head>".data "<body></body></html>".data (by decide) (by decide),
   (injectJsonLd_spec "<s>J</s>" "<p>nohead</p>").2.2 (by decide)⟩
